import Mathlib

/-!
# notdhcp server: shallow embedding and verification

The definitions below embed `src/protocol.h` and `src/server.c`.

Conventions of the embedding:

* memory is modelled at byte level: a buffer is a `List Nat` of byte values, a
  multi-byte integer is stored in the byte order of the host (`Host.littleEndian`);
* a C string argument is the byte list of the memory it points to, read up to the
  first zero byte (the terminator follows the list when the list holds none);
* uninitialised stack memory is an input (`Stack`);
* the results of the operating system and of library calls (`recvfrom`, `close`,
  `select`, `socket`/`bind`, `rand`) are inputs;
* calls that act on the outside world are recorded as a list of `Effect`s;
* diagnostic output on stdout/stderr is not modelled.
-/

namespace Notdhcp

/-! ## protocol.h -/

def PASSWORD_LENGTH : Nat := 32

def SERVER_PORT : Nat := 4242
def CLIENT_PORT : Nat := 4343

def REQUEST_TYPE_GETLEASE : Nat := 42
def RESPONSE_TYPE : Nat := 43
def REQUEST_TYPE_ACK : Nat := 44
def REQUEST_TYPE_HEARTBEAT : Nat := 45
def RESPONSE_TYPE_ACK : Nat := 46

def STATE_STOPPED : Nat := 0
def STATE_LISTENING : Nat := 1
def STATE_GOT_ACK : Nat := 2

/-! ## rand() and generate_password -/

/-- Generator behind `rand()`: the endless stream of values it will return and the
number of values already consumed. -/
structure Rng where
  draws : Nat → Nat
  used : Nat

/-- One call of `rand()`: the next value of the stream (a non-negative `int`). -/
def rand (g : Rng) : Nat × Rng :=
  (g.draws g.used, { g with used := g.used + 1 })

/-- The array `charset[]` of `generate_password`, terminator included, so that
`sizeof(charset)` is `charset.length`. -/
def charset : List Nat :=
  "0123456789abcdefghijklmnopqrstuvwxyzABCDEFGHIJK".toList.map Char.toNat ++ [0]

/-- The `while(len)` loop of `generate_password`: each round draws a key and stores
`charset[key]` at `buffer[len - 1]`. -/
def generate_password_loop : Nat → Rng → List Nat → List Nat × Rng
  | 0, g, buffer => (buffer, g)
  | len + 1, g, buffer =>
    let key := (rand g).1 % (charset.length - 1)
    generate_password_loop len (rand g).2 (buffer.set len (charset.getD key 0))

/-- `generate_password(buffer, len)`: `buffer[--len] = 0`, then the loop.
(`len` is at least 1 at the only call site.) -/
def generate_password (g : Rng) (buffer : List Nat) (len : Nat) : List Nat × Rng :=
  generate_password_loop (len - 1) g (buffer.set (len - 1) 0)

/-- The symbols `generate_password` can select: `charset[key]` for `key` below
`sizeof(charset) - 1`. -/
def alphabet : List Nat := charset.take (charset.length - 1)

/-- ASCII letter or digit. -/
def isAlnum (c : Nat) : Bool :=
  (48 ≤ c && c ≤ 57) || (65 ≤ c && c ≤ 90) || (97 ≤ c && c ≤ 122)

/-! ## Host integers and memory -/

/-- The machine the server runs on: only its byte order matters here. -/
structure Host where
  littleEndian : Bool
  deriving DecidableEq, Repr

/-- Reversal of the four bytes of a 32-bit value. -/
def bswap32 (x : Nat) : Nat :=
  (x % 256) * 2 ^ 24 + (x / 2 ^ 8 % 256) * 2 ^ 16 + (x / 2 ^ 16 % 256) * 2 ^ 8 + (x / 2 ^ 24 % 256)

/-- The libc function `htonl`: takes and returns a `uint32_t`; the identity on a
big-endian host, a byte swap on a little-endian one. -/
def htonl (h : Host) (x : Nat) : Nat :=
  if h.littleEndian then bswap32 (x % 2 ^ 32) else x % 2 ^ 32

/-- The libc function `ntohl`: the same conversion as `htonl`. -/
def ntohl (h : Host) (x : Nat) : Nat := htonl h x

/-- Bytes of `v`, most significant first, truncated to `width` bytes. -/
def bigEndianBytes (width v : Nat) : List Nat :=
  (List.range width).map (fun i => v / 256 ^ (width - 1 - i) % 256)

/-- In-memory bytes of an unsigned integer object of `width` bytes holding `v`
(an assignment to a narrower object truncates). -/
def storeBytes (h : Host) (width v : Nat) : List Nat :=
  if h.littleEndian then (bigEndianBytes width v).reverse else bigEndianBytes width v

/-- Value of a byte sequence read most significant byte first. -/
def bigEndianValue (bs : List Nat) : Nat :=
  bs.foldl (fun acc b => acc * 256 + b % 256) 0

/-- Value of the unsigned integer object stored in the bytes `bs`. -/
def loadBytes (h : Host) (bs : List Nat) : Nat :=
  if h.littleEndian then bigEndianValue bs.reverse else bigEndianValue bs

/-- Overwrite `buf` from offset `off` with `bytes` (`memcpy` into a buffer, or a
store to a field at that offset). -/
def writeAt (buf : List Nat) (off : Nat) (bytes : List Nat) : List Nat :=
  buf.take off ++ bytes ++ buf.drop (off + bytes.length)

/-- The first `n` bytes of a region of uninitialised memory. -/
def junkBytes (junk : Nat → Nat) (n : Nat) : List Nat :=
  (List.range n).map (fun i => junk i % 256)

/-- The characters of the C string stored in `mem`, terminator excluded. -/
def cstr (mem : List Nat) : List Nat := mem.takeWhile (fun b => b != 0)

/-- The libc function `strlen`. -/
def strlen (mem : List Nat) : Nat := (cstr mem).length

/-- The libc function `strncpy(dst, src, n)`: the `n` bytes written to `dst`, the
characters of `src` up to its terminator, zero-filled up to `n`. -/
def strncpy (src : List Nat) (n : Nat) : List Nat :=
  (cstr (src.take n)) ++ List.replicate (n - (cstr (src.take n)).length) 0

/-- `memcpy(dst, s, n)` from a C string `s` with `n` at most `strlen(s) + 1`: the
bytes read, the characters then the terminator. -/
def memcpyString (mem : List Nat) (n : Nat) : List Nat :=
  (cstr mem ++ [0]).take n

/-! ## Library functions the server calls -/

/-- One shift-and-xor step of the CRC-32 register. -/
def crc32_bit (c : Nat) : Nat :=
  if c % 2 = 1 then (c / 2) ^^^ 0xEDB88320 else c / 2

/-- Eight register steps after the byte `b` is xored into the low bits. -/
def crc32_byte (c b : Nat) : Nat :=
  crc32_bit (crc32_bit (crc32_bit (crc32_bit (crc32_bit (crc32_bit (crc32_bit (crc32_bit
    (c ^^^ (b % 256)))))))))

/-- Modelled from the spec: `crc32` of crc32.h, which is not among the sources. The
spec makes it the standard CRC-32 (CRC-32/ISO-HDLC): reflected polynomial
0xEDB88320, register preset to all ones, result complemented. -/
def crc32 (data : List Nat) : Nat :=
  (data.foldl crc32_byte 0xFFFFFFFF) ^^^ 0xFFFFFFFF

/-- Split a character list at every dot. -/
def splitOnDot : List Char → List (List Char)
  | [] => [[]]
  | c :: cs =>
    match splitOnDot cs with
    | [] => [[]]
    | p :: ps => if c = '.' then [] :: p :: ps else (c :: p) :: ps

/-- A non-empty run of decimal digits as a number. -/
def parseDecimal (cs : List Char) : Option Nat :=
  if cs ≠ [] ∧ cs.all Char.isDigit then
    some (cs.foldl (fun acc c => acc * 10 + (c.toNat - 48)) 0)
  else none

/-- The four numbers of a dotted quad with decimal parts. -/
def parseDottedQuad (s : String) : Option (List Nat) :=
  match (splitOnDot s.toList).map parseDecimal with
  | [some a, some b, some c, some d] =>
    if a ≤ 255 ∧ b ≤ 255 ∧ c ≤ 255 ∧ d ≤ 255 then some [a, b, c, d] else none
  | _ => none

/-- The libc function `inet_addr` on dotted quads with four decimal parts: the
`in_addr_t` whose bytes in memory are the four parts in order (network byte order).
Other strings give `INADDR_NONE` here (libc also reads shorter, octal and
hexadecimal forms, which the model leaves out). -/
def inet_addr (h : Host) (s : String) : Nat :=
  match parseDottedQuad s with
  | some quad => loadBytes h quad
  | none => 0xFFFFFFFF

/-- The libc function `htons`. -/
def htons (h : Host) (x : Nat) : Nat :=
  loadBytes h (bigEndianBytes 2 x)

def EINTR : Nat := 4
def EBADF : Nat := 9
def EAGAIN : Nat := 11
def EWOULDBLOCK : Nat := 11

/-! ## Layout of the messages -/

/-- The size of `struct request`: two `uint16_t`. -/
def sizeof_request : Nat := 4

/-- Modelled from the spec: the member `crc` of `struct response`, which
`add_crc` uses and protocol.h does not declare. The spec makes it a 32-bit field
that every following byte of the message comes after, `add_crc` starts its sum
`sizeof(resp->crc)` bytes into the struct: a `uint32_t` at offset 0. -/
def sizeof_crc : Nat := 4

/-! Offsets of the members of `struct response` behind `crc`, each aligned to its
size: `type` 4, `lease_vlan` 6, `lease_ip` 8, `lease_netmask` 12 (two bytes of
padding follow), `cert_size` 16, `key_size` 20, `password` 24 (33 bytes, three bytes
of padding follow). -/

def offset_type : Nat := sizeof_crc
def offset_lease_vlan : Nat := sizeof_crc + 2
def offset_lease_ip : Nat := sizeof_crc + 4
def offset_lease_netmask : Nat := sizeof_crc + 8
def offset_cert_size : Nat := sizeof_crc + 12
def offset_key_size : Nat := sizeof_crc + 16
def offset_password : Nat := sizeof_crc + 20
def sizeof_response : Nat := sizeof_crc + 56

/-! ## State of the server -/

/-- A `struct sockaddr_in`, as far as the server touches it. -/
structure SockAddr where
  sin_addr : Nat
  sin_port : Nat
  deriving DecidableEq, Repr

/-- The `struct interface` of server.c; the `next` pointer is the tail of the list
the struct sits in. -/
structure Interface where
  ifname : String
  ip : String
  netmask : String
  sock : Int
  addr : SockAddr
  password : List Nat
  state : Nat
  deriving DecidableEq, Repr

/-- The global variables set once by `main` that the protocol code reads;
`ssl_cert` and `ssl_key` are `none` for a null pointer. (`verbose` only switches
diagnostic output.) -/
structure Config where
  ssl_cert : Option (List Nat)
  ssl_key : Option (List Nat)
  hook_script_path : Option String
  deriving DecidableEq, Repr

/-- A call that acts on the outside world. -/
inductive Effect where
  /-- Call `run_hook_script(hook_script_path, ifname, event, NULL)`. -/
  | hook (script : Option String) (ifname : String) (event : String)
  /-- Call `raw_udp_broadcast(sock, buffer, len, from_port, to_port)`; `buffer` holds the `len` bytes. -/
  | broadcast (sock : Int) (buffer : List Nat) (from_port to_port : Nat)
  /-- Call `close(sock)`. -/
  | close (sock : Int)
  deriving DecidableEq, Repr

/-- What `recvfrom` finds on the socket. -/
inductive RecvOutcome where
  /-- A datagram with this payload from this sender. -/
  | datagram (payload : List Nat) (sender : SockAddr)
  /-- The call fails, returns -1 and sets `errno`. -/
  | failure (errno : Nat)
  deriving DecidableEq, Repr

/-- What one call of `handle_incoming` finds around it. -/
structure Env where
  /-- Contents of the uninitialised local `req`. -/
  reqJunk : Nat → Nat
  /-- Contents of the uninitialised local `resp` and of the stack behind it. -/
  respJunk : Nat → Nat
  /-- Contents of the block `malloc` returns. -/
  heapJunk : Nat → Nat
  /-- What `recvfrom` finds. -/
  recv : RecvOutcome
  /-- Return value of `raw_udp_broadcast`. -/
  broadcastRet : Int

/-! ## server.c: building and sending a response -/

/-- `broadcast_packet(sock, buffer, len)`: hands the `len` bytes at `buffer` to
`raw_udp_broadcast` with the two ports and returns its result. -/
def broadcast_packet (ret : Int) (sock : Int) (buffer : List Nat) (len : Nat) : Int × List Effect :=
  (ret, [Effect.broadcast sock (buffer.take len) SERVER_PORT CLIENT_PORT])

/-- `add_crc(resp, len)` on the memory `mem` that starts at `resp`: the member
`crc` receives `htonl` of the CRC of the `len - sizeof(resp->crc)` bytes behind it. -/
def add_crc (h : Host) (mem : List Nat) (len : Nat) : List Nat :=
  writeAt mem 0
    (storeBytes h sizeof_crc (htonl h (crc32 ((mem.drop sizeof_crc).take (len - sizeof_crc)))))

/-- Result of `send_response`: its return value, the local `resp` when it returns,
and the calls made. -/
structure SendResult where
  ret : Int
  resp : List Nat
  effects : List Effect

/-- `send_response(iface)`. The local `resp` starts as the stack left it; the
members `crc`, `lease_vlan` and the padding are never assigned before the checksum
is taken. With a certificate and a key the struct is copied into `sendbuf` before
`add_crc` runs on `resp`, and `add_crc` sums `response_size` bytes from the address
of `resp`, reading on into the stack behind it. (The `int` sizes are taken without
wrap-around: the strings `main` loads stay far below 2^31 bytes.) -/
def send_response (h : Host) (cfg : Config) (env : Env) (iface : Interface) : SendResult :=
  let resp := junkBytes env.respJunk sizeof_response
  let resp := writeAt resp offset_type (storeBytes h 2 (htonl h RESPONSE_TYPE))
  let resp := writeAt resp offset_lease_ip (storeBytes h 4 (htonl h (inet_addr h iface.ip)))
  let resp := writeAt resp offset_lease_netmask
    (storeBytes h 2 (htonl h (inet_addr h iface.netmask)))
  let resp := writeAt resp offset_password (strncpy iface.password (PASSWORD_LENGTH + 1))
  match cfg.ssl_cert, cfg.ssl_key with
  | some ssl_cert, some ssl_key =>
    let cert_size := strlen ssl_cert + 1
    let key_size := strlen ssl_key + 1
    let resp := writeAt resp offset_cert_size (storeBytes h 4 (htonl h cert_size))
    let resp := writeAt resp offset_key_size (storeBytes h 4 (htonl h key_size))
    let sendbuf := junkBytes env.heapJunk (sizeof_response + cert_size + key_size)
    let sendbuf := writeAt sendbuf 0 resp
    let sendbuf := writeAt sendbuf sizeof_response (memcpyString ssl_cert cert_size)
    let sendbuf := writeAt sendbuf (sizeof_response + cert_size - 1) [0]
    let sendbuf := writeAt sendbuf (sizeof_response + cert_size) (memcpyString ssl_key key_size)
    let sendbuf := writeAt sendbuf (sizeof_response + cert_size + key_size - 1) [0]
    let response_size := sizeof_response + cert_size + key_size
    let stack := add_crc h (resp ++ (junkBytes env.respJunk response_size).drop sizeof_response)
      response_size
    let sent := broadcast_packet env.broadcastRet iface.sock sendbuf response_size
    { ret := sent.1, resp := stack.take sizeof_response, effects := sent.2 }
  | _, _ =>
    let resp := writeAt resp offset_cert_size (storeBytes h 4 0)
    let resp := writeAt resp offset_key_size (storeBytes h 4 0)
    let resp := add_crc h resp sizeof_response
    let sent := broadcast_packet env.broadcastRet iface.sock resp sizeof_response
    { ret := sent.1, resp := resp, effects := sent.2 }

/-! ## server.c: handling one datagram -/

/-- Result of the call of `recvfrom` in `handle_incoming`. -/
structure RecvResult where
  ret : Int
  errno : Nat
  req : List Nat
  addr : SockAddr

/-- The call `recvfrom(iface->sock, &req, sizeof(req), 0, &iface->addr, &addrlen)`:
a datagram fills `req` with its first `sizeof(req)` bytes at most and `addr` with
its sender, and its return value is the number of bytes stored; a failure leaves
both untouched and returns -1. -/
def recvfrom (reqJunk : Nat → Nat) (addr : SockAddr) : RecvOutcome → RecvResult
  | RecvOutcome.datagram payload sender =>
    { ret := ((payload.take sizeof_request).length : Nat)
      errno := 0
      req := writeAt (junkBytes reqJunk sizeof_request) 0 (payload.take sizeof_request)
      addr := sender }
  | RecvOutcome.failure errno =>
    { ret := -1, errno := errno, req := junkBytes reqJunk sizeof_request, addr := addr }

/-- Conversion of an `ssize_t` to `size_t` (64-bit), as the comparison
`ret < sizeof(req)` does with its left operand. -/
def toSizeT (x : Int) : Nat := (x % 2 ^ 64).toNat

/-- The member `type` of the `struct request` stored in `req`, as read by the host. -/
def request_type (h : Host) (req : List Nat) : Nat := loadBytes h (req.take 2)

/-- The member `vlan` of the `struct request` stored in `req`, as read by the host. -/
def request_vlan (h : Host) (req : List Nat) : Nat := loadBytes h ((req.drop 2).take 2)

/-- The statement `req.type = ntohl(req.type)`: the value the 16-bit member holds
afterwards. -/
def decoded_type (h : Host) (req : List Nat) : Nat := ntohl h (request_type h req) % 2 ^ 16

/-- Result of `handle_incoming`: its return value, the session and the generator
afterwards, and the calls made. -/
structure Handled where
  ret : Int
  iface : Interface
  rng : Rng
  effects : List Effect

/-- `handle_incoming(iface)`. -/
def handle_incoming (h : Host) (cfg : Config) (env : Env) (rng : Rng) (iface : Interface) :
    Handled :=
  let r := recvfrom env.reqJunk iface.addr env.recv
  let iface := { iface with addr := r.addr }
  if r.ret < 0 ∧ (r.errno = EWOULDBLOCK ∨ r.errno = EAGAIN) then
    { ret := 0, iface := iface, rng := rng, effects := [] }
  else if toSizeT r.ret < sizeof_request then
    { ret := 1, iface := iface, rng := rng, effects := [] }
  else if r.ret = 0 then
    { ret := 1, iface := iface, rng := rng, effects := [] }
  else if decoded_type h r.req = REQUEST_TYPE_GETLEASE then
    let g := generate_password rng iface.password (PASSWORD_LENGTH + 1)
    let iface := { iface with password := g.1 }
    { ret := 1, iface := iface, rng := g.2, effects := (send_response h cfg env iface).effects }
  else if decoded_type h r.req = REQUEST_TYPE_ACK then
    if iface.state = STATE_GOT_ACK then
      { ret := 1, iface := iface, rng := rng, effects := [] }
    else
      { ret := 1, iface := { iface with state := STATE_GOT_ACK }, rng := rng,
        effects := [Effect.hook cfg.hook_script_path iface.ifname "up"] }
  else
    { ret := 1, iface := iface, rng := rng, effects := [] }

/-! ## server.c: link state changes -/

/-- Result of a function that returns an `int` and may change the session. -/
structure Changed where
  ret : Int
  iface : Interface
  effects : List Effect

/-- `stop_monitor_interface(iface)`; `closeRet` is what `close` returns. -/
def stop_monitor_interface (closeRet : Int) (iface : Interface) : Changed :=
  { ret := closeRet, iface := { iface with state := STATE_STOPPED },
    effects := [Effect.close iface.sock] }

/-- `monitor_interface(iface)`; `setup` is the descriptor of the new socket when
`socket`, `setsockopt`, `fcntl` and `bind` all succeed, and `none` when one of them
fails (the function then returns -1 before it touches the session). -/
def monitor_interface (h : Host) (setup : Option Int) (iface : Interface) : Changed :=
  match setup with
  | none => { ret := -1, iface := iface, effects := [] }
  | some sock =>
    { ret := 0
      iface := { iface with
        sock := sock
        addr := { sin_addr := inet_addr h "0.0.0.0", sin_port := htons h SERVER_PORT }
        state := STATE_LISTENING }
      effects := [] }

/-- What one call of `physical_ethernet_state_change` finds around it: the return
value of `close` and the outcome of the socket setup. -/
structure LinkEnv where
  closeRet : Int
  setup : Option Int
  deriving DecidableEq, Repr

/-- The `do ... while(iface = iface->next)` loop of
`physical_ethernet_state_change`, from the session at the head of the list on. -/
def state_change_loop (h : Host) (cfg : Config) (env : LinkEnv) (ifname : String)
    (connected : Int) : List Interface → List Interface × List Effect
  | [] => ([], [])
  | iface :: rest =>
    if iface.ifname = ifname then
      if connected ≠ 0 then
        if iface.state = STATE_STOPPED then
          ((monitor_interface h env.setup iface).iface :: rest, [])
        else
          let r := state_change_loop h cfg env ifname connected rest
          (iface :: r.1, r.2)
      else
        if iface.state ≠ STATE_STOPPED then
          let s := stop_monitor_interface env.closeRet iface
          if s.ret < 0 then
            (s.iface :: rest, s.effects)
          else
            (s.iface :: rest,
              s.effects ++ [Effect.hook cfg.hook_script_path iface.ifname "down"])
        else
          (iface :: rest, [])
    else
      let r := state_change_loop h cfg env ifname connected rest
      (iface :: r.1, r.2)

/-- `physical_ethernet_state_change(ifname, connected)` on the global list
`interfaces`; `none` is the null dereference of the first round on an empty list. -/
def physical_ethernet_state_change (h : Host) (cfg : Config) (env : LinkEnv)
    (ifname : String) (connected : Int) (interfaces : List Interface) :
    Option (List Interface × List Effect) :=
  match interfaces with
  | [] => none
  | _ :: _ => some (state_change_loop h cfg env ifname connected interfaces)

/-! ## server.c: the loop of main -/

/-- The first `do ... while` loop of an iteration: `FD_SET` and `max_fd` for every
session that passes the test `iface->state != STATE_LISTENING`. -/
def fdset_loop : List Interface → List Int × Int → List Int × Int
  | [], acc => acc
  | iface :: rest, (fdset, max_fd) =>
    if iface.state ≠ STATE_LISTENING then
      fdset_loop rest (fdset, max_fd)
    else
      fdset_loop rest (iface.sock :: fdset, if iface.sock > max_fd then iface.sock else max_fd)

/-- Lines 531 to 549 of `main`: the descriptor set handed to `select` and
`max_fd`; `none` is the null dereference on an empty list. -/
def build_fdset (nlsock : Int) (interfaces : List Interface) : Option (List Int × Int) :=
  match interfaces with
  | [] => none
  | _ :: _ =>
    let built := fdset_loop interfaces ([], 0)
    some (nlsock :: built.1, if nlsock > built.2 then nlsock else built.2)

/-- What `select` reports. -/
inductive SelectOutcome where
  /-- It returns with these descriptors readable. -/
  | ready (readable : List Int)
  /-- It fails, returns -1 and sets `errno`; the set stays as it was passed. -/
  | failure (errno : Nat)
  deriving DecidableEq, Repr

/-- A pending link notification: the arguments the callback receives and what the
callback finds around it. -/
structure LinkEvent where
  ifname : String
  connected : Int
  env : LinkEnv
  deriving DecidableEq, Repr

/-- Modelled from the spec: `netlink_handle_incoming` of phyconnect.h, which is not
among the sources. The spec has it process the pending link-state events through
the callback, here `physical_ethernet_state_change`, one after the other. -/
def netlink_handle_incoming (h : Host) (cfg : Config) :
    List LinkEvent → List Interface → Option (List Interface × List Effect)
  | [], interfaces => some (interfaces, [])
  | ev :: evs, interfaces =>
    match physical_ethernet_state_change h cfg ev.env ev.ifname ev.connected interfaces with
    | none => none
    | some (interfaces1, eff1) =>
      match netlink_handle_incoming h cfg evs interfaces1 with
      | none => none
      | some (interfaces2, eff2) => some (interfaces2, eff1 ++ eff2)

/-- Record of a stretch of the loop. `calls` lists the session as it was at each
invocation of `handle_incoming`, `count` is the number of invocations so far, and
`finished` is false when the stretch was cut off for lack of fuel. -/
structure Run where
  finished : Bool
  interfaces : List Interface
  rng : Rng
  calls : List Interface
  effects : List Effect
  count : Nat

/-- The loop `while(handle_incoming(iface)) {}` on one session. The `k`-th
invocation of the iteration finds the surroundings `feed k`; `fuel` bounds the
number of rounds. The session after the loop is the only element of `interfaces`. -/
def drain (h : Host) (cfg : Config) (feed : Nat → Env) : Nat → Nat → Rng → Interface → Run
  | 0, k, rng, iface =>
    { finished := false, interfaces := [iface], rng := rng, calls := [], effects := [],
      count := k }
  | fuel + 1, k, rng, iface =>
    let r := handle_incoming h cfg (feed k) rng iface
    if r.ret ≠ 0 then
      let rest := drain h cfg feed fuel (k + 1) r.rng r.iface
      { rest with calls := iface :: rest.calls, effects := r.effects ++ rest.effects }
    else
      { finished := true, interfaces := [r.iface], rng := r.rng, calls := [iface],
        effects := r.effects, count := k + 1 }

/-- The second `do ... while` loop of an iteration (lines 562 to 570), from the
session at the head of the list on: every session whose `sock` is in the set
`select` left is drained. -/
def dispatch_loop (h : Host) (cfg : Config) (feed : Nat → Env) (fdset : List Int)
    (fuel : Nat) : List Interface → Nat → Rng → Run
  | [], k, rng =>
    { finished := true, interfaces := [], rng := rng, calls := [], effects := [], count := k }
  | iface :: rest, k, rng =>
    if iface.sock ∈ fdset then
      let d := drain h cfg feed fuel k rng iface
      if d.finished then
        let r := dispatch_loop h cfg feed fdset fuel rest d.count d.rng
        { r with
          interfaces := d.interfaces ++ r.interfaces
          calls := d.calls ++ r.calls
          effects := d.effects ++ r.effects }
      else
        { d with interfaces := d.interfaces ++ rest }
    else
      let r := dispatch_loop h cfg feed fdset fuel rest k rng
      { r with interfaces := iface :: r.interfaces }

/-- What one iteration of the loop of `main` finds around it. -/
structure LoopEnv where
  /-- What `select` reports. -/
  select : SelectOutcome
  /-- The link notifications pending when `netlink_handle_incoming` runs. -/
  links : List LinkEvent
  /-- The surroundings of the invocations of `handle_incoming`, in order. -/
  feed : Nat → Env

/-- One iteration of the `for(;;)` loop of `main` (lines 528 to 571); `none` is a
null dereference on an empty list. -/
def main_iteration (h : Host) (cfg : Config) (nlsock : Int) (env : LoopEnv) (fuel : Nat)
    (interfaces : List Interface) (rng : Rng) : Option Run :=
  match build_fdset nlsock interfaces with
  | none => none
  | some (built, _) =>
    let idle : Run :=
      { finished := true, interfaces := interfaces, rng := rng, calls := [], effects := [],
        count := 0 }
    let fdset : Option (List Int) :=
      match env.select with
      | SelectOutcome.ready readable => some (built.filter (fun fd => fd ∈ readable))
      | SelectOutcome.failure errno => if errno = EINTR then none else some built
    match fdset with
    | none => some idle
    | some fdset =>
      let linked :=
        if nlsock ∈ fdset then netlink_handle_incoming h cfg env.links interfaces
        else some (interfaces, [])
      match linked with
      | none => none
      | some (interfaces1, eff1) =>
        let r := dispatch_loop h cfg env.feed fdset fuel interfaces1 0 rng
        some { r with effects := eff1 ++ r.effects }

/-! ## The request encoder of the spec -/

/-- Modelled from the spec: `encodeRequestForTest(type, vlan)`, the four bytes of a
request on the wire, both 16-bit fields in network byte order. -/
def encodeRequestForTest (type vlan : Nat) : List Nat :=
  bigEndianBytes 2 type ++ bigEndianBytes 2 vlan

/-! ## Notions the statements use -/

/-- The receive call delivers a full-size request whose type decodes to `t`. -/
def fullRequestOfType (h : Host) (t : Nat) (env : Env) : Bool :=
  match env.recv with
  | RecvOutcome.datagram payload _ =>
    decide (sizeof_request ≤ payload.length) &&
      decide (decoded_type h (payload.take sizeof_request) = t)
  | RecvOutcome.failure _ => false

/-- Successive invocations of `handle_incoming` on one session, one for each element
of `envs`: the session and the generator at the end and all calls made. -/
def handle_run (h : Host) (cfg : Config) : List Env → Rng → Interface →
    Interface × Rng × List Effect
  | [], rng, iface => (iface, rng, [])
  | env :: envs, rng, iface =>
    let r := handle_incoming h cfg env rng iface
    let rest := handle_run h cfg envs r.rng r.iface
    (rest.1, rest.2.1, r.effects ++ rest.2.2)

/-! ## Sample data -/

def bigEndianHost : Host := { littleEndian := false }

def littleEndianHost : Host := { littleEndian := true }

/-- The bytes of an ASCII string. -/
def ascii (s : String) : List Nat := s.toList.map Char.toNat

/-- The session of the scenarios of the spec, listening on descriptor 4. -/
def eth0 : Interface :=
  { ifname := "eth0", ip := "100.64.0.2", netmask := "255.255.255.192", sock := 4,
    addr := { sin_addr := 0, sin_port := 0 }, password := List.replicate 33 0,
    state := STATE_LISTENING }

/-- No certificate, no key, no hook script. -/
def plainConfig : Config := { ssl_cert := none, ssl_key := none, hook_script_path := none }

/-- The certificate "CERT" and the key "KEY". -/
def certConfig : Config :=
  { ssl_cert := some (ascii "CERT"), ssl_key := some (ascii "KEY"), hook_script_path := none }

/-- Surroundings with zeroed memory in which `recvfrom` finds `recv`. -/
def zeroedEnv (recv : RecvOutcome) : Env :=
  { reqJunk := fun _ => 0, respJunk := fun _ => 0, heapJunk := fun _ => 0, recv := recv,
    broadcastRet := 0 }

/-- Surroundings in which `recvfrom` fails with `errno` and the local `req` holds the
bytes `junk` the stack was left with. -/
def failingEnv (errno : Nat) (junk : List Nat) : Env :=
  { reqJunk := fun i => junk.getD i 0, respJunk := fun _ => 0, heapJunk := fun _ => 0,
    recv := RecvOutcome.failure errno, broadcastRet := 0 }

/-- The generator whose draws are 0, 1, 2, ... -/
def countingRng : Rng := { draws := fun n => n, used := 0 }

/-- An iteration in which `select` reports the link channel (descriptor 3) and the
socket of `eth0` (descriptor 4) readable, the link channel holds a link-down
notification for `eth0`, `close` succeeds, and every later `recvfrom` on the closed
descriptor fails with `EBADF`. -/
def linkDownLoopEnv : LoopEnv :=
  { select := SelectOutcome.ready [3, 4]
    links := [{ ifname := "eth0", connected := 0, env := { closeRet := 0, setup := none } }]
    feed := fun _ => zeroedEnv (RecvOutcome.failure EBADF) }

/-- The bytes of the first datagram handed to the broadcast transport. -/
def sentBytes : List Effect → List Nat
  | [] => []
  | Effect.broadcast _ buffer _ _ :: _ => buffer
  | _ :: rest => sentBytes rest

/-- An acknowledge request as a big-endian host receives it. -/
def ackEnv : Env :=
  zeroedEnv (RecvOutcome.datagram [0, 44, 0, 0] { sin_addr := 0, sin_port := 0 })

/-- A get-lease request as a big-endian host receives it. -/
def getLeaseEnv : Env :=
  zeroedEnv (RecvOutcome.datagram [0, 42, 0, 0] { sin_addr := 0, sin_port := 0 })

/-! ## Theorems: generate_password -/

/-- The loop of `generate_password` keeps the length of the buffer, consumes `len`
draws, stores at each position below `len` the symbol selected by that position's
own draw, and leaves the positions from `len` on as they were. -/
theorem generate_password_loop_spec (len : Nat) :
    ∀ (g : Rng) (buffer : List Nat), len ≤ buffer.length →
      (generate_password_loop len g buffer).1.length = buffer.length ∧
      (generate_password_loop len g buffer).2 = { g with used := g.used + len } ∧
      (∀ i, i < len → (generate_password_loop len g buffer).1[i]? =
        some (charset.getD (g.draws (g.used + (len - 1 - i)) % (charset.length - 1)) 0)) ∧
      (∀ i, len ≤ i → (generate_password_loop len g buffer).1[i]? = buffer[i]?) := by
  induction len with
  | zero =>
    intro g buffer _
    simp [generate_password_loop]
  | succ n ih =>
    intro g buffer hlen
    have hn : n ≤ (buffer.set n (charset.getD ((rand g).1 % (charset.length - 1)) 0)).length := by
      rw [List.length_set]; omega
    obtain ⟨h1, h2, h3, h4⟩ := ih (rand g).2 _ hn
    simp only [generate_password_loop]
    refine ⟨?_, ?_, ?_, ?_⟩
    · rw [h1, List.length_set]
    · rw [h2]; simp [rand]; omega
    · intro i hi
      by_cases hin : i < n
      · rw [h3 i hin]
        simp only [rand]
        have : g.used + 1 + (n - 1 - i) = g.used + (n + 1 - 1 - i) := by omega
        rw [this]
      · have hi2 : i = n := by omega
        subst hi2
        rw [h4 i (le_refl i), List.getElem?_set_self (by omega)]
        simp [rand]
    · intro i hi
      rw [h4 i (by omega), List.getElem?_set_ne (by omega)]

/-- Every symbol of the alphabet is selected by some key below 47. -/
theorem alphabet_key (c : Nat) (hc : c ∈ alphabet) :
    ∃ key, key < 47 ∧ charset.getD (key % (charset.length - 1)) 0 = c := by
  have h : ∀ c ∈ alphabet, ∃ key ∈ List.range 47, charset.getD (key % (charset.length - 1)) 0 = c := by
    decide
  obtain ⟨key, hk, hkey⟩ := h c hc
  exact ⟨key, List.mem_range.mp hk, hkey⟩

/-- Every key selects a symbol of the alphabet. -/
theorem charset_key_mem (r : Nat) : charset.getD (r % (charset.length - 1)) 0 ∈ alphabet := by
  have h : ∀ key ∈ List.range 47, charset.getD key 0 ∈ alphabet := by decide
  have hlen : charset.length - 1 = 47 := by decide
  rw [hlen]
  exact h _ (List.mem_range.mpr (Nat.mod_lt _ (by norm_num)))

/-- On a 33-byte buffer `generate_password` writes the terminator at position 32,
consumes 32 draws, and stores at position `i` the symbol its own draw selects. -/
theorem generate_password_positions (g : Rng) (buffer : List Nat)
    (hbuf : buffer.length = PASSWORD_LENGTH + 1) :
    (generate_password g buffer (PASSWORD_LENGTH + 1)).1.length = PASSWORD_LENGTH + 1 ∧
    (generate_password g buffer (PASSWORD_LENGTH + 1)).1[PASSWORD_LENGTH]? = some 0 ∧
    (generate_password g buffer (PASSWORD_LENGTH + 1)).2 =
      { g with used := g.used + PASSWORD_LENGTH } ∧
    (∀ i, i < PASSWORD_LENGTH →
      (generate_password g buffer (PASSWORD_LENGTH + 1)).1[i]? =
        some (charset.getD (g.draws (g.used + (PASSWORD_LENGTH - 1 - i)) % 47) 0)) := by
  have hlen : charset.length - 1 = 47 := by decide
  have hset : PASSWORD_LENGTH ≤ (buffer.set PASSWORD_LENGTH 0).length := by
    rw [List.length_set, hbuf]; omega
  obtain ⟨h1, h2, h3, h4⟩ := generate_password_loop_spec PASSWORD_LENGTH g _ hset
  simp only [generate_password, Nat.add_sub_cancel]
  refine ⟨?_, ?_, h2, ?_⟩
  · rw [h1, List.length_set, hbuf]
  · rw [h4 _ (le_refl _), List.getElem?_set_self (by rw [hbuf]; omega)]
  · intro i hi
    rw [h3 i hi, hlen]

/-- C9, as amended: for every stream of draws, `generate_password(buffer,
PASSWORD_LENGTH + 1)` on the 33-byte buffer writes 32 symbols at positions 0 to 31
and the terminator at position 32 and consumes 32 draws; the symbol at position `i`
is selected by its own draw (the draw number `31 - i` of the call) from an alphabet
of 47 distinct alphanumeric symbols, and each of the 47 symbols is attainable at
each position. -/
theorem generate_password_spec (g : Rng) (buffer : List Nat)
    (hbuf : buffer.length = PASSWORD_LENGTH + 1) :
    (generate_password g buffer (PASSWORD_LENGTH + 1)).1.length = PASSWORD_LENGTH + 1 ∧
    (generate_password g buffer (PASSWORD_LENGTH + 1)).1[PASSWORD_LENGTH]? = some 0 ∧
    (generate_password g buffer (PASSWORD_LENGTH + 1)).2 =
      { g with used := g.used + PASSWORD_LENGTH } ∧
    (∀ i, i < PASSWORD_LENGTH →
      (generate_password g buffer (PASSWORD_LENGTH + 1)).1[i]? =
        some (charset.getD (g.draws (g.used + (PASSWORD_LENGTH - 1 - i)) % 47) 0) ∧
      charset.getD (g.draws (g.used + (PASSWORD_LENGTH - 1 - i)) % 47) 0 ∈ alphabet) ∧
    alphabet.length = 47 ∧ alphabet.Nodup ∧ (∀ c ∈ alphabet, isAlnum c = true) ∧
    (∀ i, i < PASSWORD_LENGTH → ∀ c ∈ alphabet, ∃ g1 : Rng,
      (generate_password g1 buffer (PASSWORD_LENGTH + 1)).1[i]? = some c) := by
  have hlen : charset.length - 1 = 47 := by decide
  obtain ⟨k1, k2, k3, k4⟩ := generate_password_positions g buffer hbuf
  refine ⟨k1, k2, k3, ?_, by decide, by decide, by decide, ?_⟩
  · intro i hi
    refine ⟨k4 i hi, ?_⟩
    have := charset_key_mem (g.draws (g.used + (PASSWORD_LENGTH - 1 - i)))
    rwa [hlen] at this
  · intro i hi c hc
    obtain ⟨k, _, hk⟩ := alphabet_key c hc
    refine ⟨{ draws := fun _ => k, used := 0 }, ?_⟩
    rw [(generate_password_positions _ buffer hbuf).2.2.2 i hi]
    rw [hlen] at hk
    exact congrArg some hk

/-- Witness of `generate_password_spec` on a zeroed buffer and the stream 0, 1, 2, ... -/
theorem generate_password_spec_witness :
    (generate_password { draws := fun n => n, used := 0 } (List.replicate 33 0)
        (PASSWORD_LENGTH + 1)).1[PASSWORD_LENGTH]? = some 0 ∧
    (generate_password { draws := fun n => n, used := 0 } (List.replicate 33 0)
        (PASSWORD_LENGTH + 1)).1[0]? = some 118 :=
  ⟨(generate_password_spec { draws := fun n => n, used := 0 } (List.replicate 33 0)
      (by decide)).2.1, by decide⟩

/-- C9, as stated, fails: no list of 48 distinct symbols is attainable at a position
(here position 0) of the generated password. -/
theorem generate_password_no_48_symbols :
    ¬ ∃ symbols : List Nat, symbols.length = 48 ∧ symbols.Nodup ∧
      ∀ c ∈ symbols, ∃ g : Rng,
        (generate_password g (List.replicate 33 0) (PASSWORD_LENGTH + 1)).1[0]? = some c := by
  rintro ⟨symbols, hlen, hnd, hall⟩
  have hsub : symbols ⊆ alphabet := by
    intro c hc
    obtain ⟨g, hg⟩ := hall c hc
    have h := (generate_password_positions g (List.replicate 33 0) (by decide)).2.2.2 0
      (by decide)
    rw [h] at hg
    have hsym : charset.getD (g.draws (g.used + (PASSWORD_LENGTH - 1 - 0)) % 47) 0 = c := by
      simpa using hg
    have hmem := charset_key_mem (g.draws (g.used + (PASSWORD_LENGTH - 1 - 0)))
    have h47 : charset.length - 1 = 47 := by decide
    rw [h47, hsym] at hmem
    exact hmem
  have hle : symbols.length ≤ alphabet.length := (hnd.subperm hsub).length_le
  have h47 : alphabet.length = 47 := by decide
  omega

/-! ## Theorems: handle_incoming -/

/-- Writing at least as many bytes as the buffer holds at offset 0 leaves the bytes
written. -/
theorem writeAt_zero_full (buf bytes : List Nat) (hlen : buf.length ≤ bytes.length) :
    writeAt buf 0 bytes = bytes := by
  simp [writeAt, List.drop_eq_nil_of_le hlen]

theorem junkBytes_length (junk : Nat → Nat) (n : Nat) : (junkBytes junk n).length = n := by
  simp [junkBytes]

/-- What `recvfrom` leaves behind for a datagram of full size. -/
theorem recvfrom_full (junk : Nat → Nat) (addr sender : SockAddr) (payload : List Nat)
    (hfull : sizeof_request ≤ payload.length) :
    recvfrom junk addr (RecvOutcome.datagram payload sender) =
      { ret := 4, errno := 0, req := payload.take sizeof_request, addr := sender } := by
  have hlen : (payload.take sizeof_request).length = sizeof_request := by
    rw [List.length_take]; omega
  simp only [recvfrom]
  rw [writeAt_zero_full _ _ (by rw [junkBytes_length, hlen]), hlen]
  rfl

/-- An acknowledge request of full size: the session moves to `STATE_GOT_ACK` with one
"up" hook unless it is there already. -/
theorem handle_incoming_ack_step (h : Host) (cfg : Config) (env : Env) (rng : Rng)
    (iface : Interface) (hreq : fullRequestOfType h REQUEST_TYPE_ACK env = true) :
    (handle_incoming h cfg env rng iface).iface.state = STATE_GOT_ACK ∧
    (handle_incoming h cfg env rng iface).iface.ifname = iface.ifname ∧
    (handle_incoming h cfg env rng iface).effects =
      if iface.state = STATE_GOT_ACK then []
      else [Effect.hook cfg.hook_script_path iface.ifname "up"] := by
  unfold fullRequestOfType at hreq
  cases hrecv : env.recv with
  | failure errno => rw [hrecv] at hreq; simp at hreq
  | datagram payload sender =>
    rw [hrecv] at hreq
    simp only [Bool.and_eq_true, decide_eq_true_eq] at hreq
    obtain ⟨hfull, hack⟩ := hreq
    have hne : REQUEST_TYPE_ACK ≠ REQUEST_TYPE_GETLEASE := by decide
    have hsz : ¬ toSizeT 4 < sizeof_request := by decide
    simp only [handle_incoming, hrecv, recvfrom_full _ _ _ _ hfull, hack]
    by_cases hst : iface.state = STATE_GOT_ACK
    · simp [hst, hne, hsz]
    · simp [hst, hne, hsz]

/-- A run of acknowledge requests leaves the name alone, ends in `STATE_GOT_ACK` when
it is not empty or started there, and calls the "up" hook once when it is not empty
and did not start in `STATE_GOT_ACK`. -/
theorem handle_run_ack (h : Host) (cfg : Config) (envs : List Env) :
    ∀ (rng : Rng) (iface : Interface),
      (∀ env ∈ envs, fullRequestOfType h REQUEST_TYPE_ACK env = true) →
      (1 ≤ envs.length ∨ iface.state = STATE_GOT_ACK →
        (handle_run h cfg envs rng iface).1.state = STATE_GOT_ACK) ∧
      (handle_run h cfg envs rng iface).2.2 =
        if envs.length = 0 ∨ iface.state = STATE_GOT_ACK then []
        else [Effect.hook cfg.hook_script_path iface.ifname "up"] := by
  induction envs with
  | nil => intro rng iface _; simp [handle_run]
  | cons env envs ih =>
    intro rng iface hall
    obtain ⟨s1, s2, s3⟩ := handle_incoming_ack_step h cfg env rng iface
      (hall env (List.mem_cons_self _ _))
    obtain ⟨r1, r2⟩ := ih (handle_incoming h cfg env rng iface).rng
      (handle_incoming h cfg env rng iface).iface
      (fun e he => hall e (List.mem_cons_of_mem _ he))
    simp only [handle_run]
    refine ⟨fun _ => r1 (Or.inr s1), ?_⟩
    rw [r2, s3]
    by_cases hst : iface.state = STATE_GOT_ACK
    · simp [hst, s1]
    · simp [hst, s1]

/-- C1: a full-size request whose type decodes to acknowledge (44) moves a session in
`STATE_LISTENING` to `STATE_GOT_ACK` and calls the hook once, with the name of the
session and "up"; it leaves a session in `STATE_GOT_ACK` there and calls no hook; so
a run of `n ≥ 1` such requests from `STATE_LISTENING` ends in `STATE_GOT_ACK` with one
"up" hook call in all. -/
theorem handle_incoming_acknowledge (h : Host) (cfg : Config) (rng : Rng) (iface : Interface) :
    (∀ env : Env, fullRequestOfType h REQUEST_TYPE_ACK env = true →
      (iface.state = STATE_LISTENING →
        (handle_incoming h cfg env rng iface).iface.state = STATE_GOT_ACK ∧
        (handle_incoming h cfg env rng iface).effects =
          [Effect.hook cfg.hook_script_path iface.ifname "up"]) ∧
      (iface.state = STATE_GOT_ACK →
        (handle_incoming h cfg env rng iface).iface.state = STATE_GOT_ACK ∧
        (handle_incoming h cfg env rng iface).effects = [])) ∧
    (∀ envs : List Env, 1 ≤ envs.length →
      (∀ env ∈ envs, fullRequestOfType h REQUEST_TYPE_ACK env = true) →
      iface.state = STATE_LISTENING →
        (handle_run h cfg envs rng iface).1.state = STATE_GOT_ACK ∧
        (handle_run h cfg envs rng iface).2.2 =
          [Effect.hook cfg.hook_script_path iface.ifname "up"]) := by
  have hne : STATE_LISTENING ≠ STATE_GOT_ACK := by decide
  refine ⟨fun env hreq => ?_, fun envs hn hall hst => ?_⟩
  · obtain ⟨s1, _, s3⟩ := handle_incoming_ack_step h cfg env rng iface hreq
    refine ⟨fun hst => ⟨s1, ?_⟩, fun hst => ⟨s1, ?_⟩⟩
    · rw [s3, hst]; simp [hne]
    · rw [s3]; simp [hst]
  · have hnil : envs.length ≠ 0 := by omega
    obtain ⟨r1, r2⟩ := handle_run_ack h cfg envs rng iface hall
    refine ⟨r1 (Or.inl hn), ?_⟩
    rw [r2, hst]
    simp [hnil, hne]

/-- C1 witness: on a big-endian host the datagram 00 2C 00 00 is an acknowledge
request; it moves `eth0` from listening to acknowledged with one "up" hook, and a
second one after it adds no hook. -/
theorem handle_incoming_acknowledge_witness :
    fullRequestOfType bigEndianHost REQUEST_TYPE_ACK ackEnv = true ∧
    eth0.state = STATE_LISTENING ∧
    (handle_incoming bigEndianHost plainConfig ackEnv countingRng eth0).iface.state =
      STATE_GOT_ACK ∧
    (handle_incoming bigEndianHost plainConfig ackEnv countingRng eth0).effects =
      [Effect.hook none "eth0" "up"] ∧
    (handle_run bigEndianHost plainConfig [ackEnv, ackEnv] countingRng eth0).1.state =
      STATE_GOT_ACK ∧
    (handle_run bigEndianHost plainConfig [ackEnv, ackEnv] countingRng eth0).2.2 =
      [Effect.hook none "eth0" "up"] :=
  ⟨by decide, by decide,
    (((handle_incoming_acknowledge bigEndianHost plainConfig countingRng eth0).1 ackEnv
      (by decide)).1 (by decide)).1,
    (((handle_incoming_acknowledge bigEndianHost plainConfig countingRng eth0).1 ackEnv
      (by decide)).1 (by decide)).2,
    ((handle_incoming_acknowledge bigEndianHost plainConfig countingRng eth0).2
      [ackEnv, ackEnv] (by decide) (by decide) (by decide)).1,
    ((handle_incoming_acknowledge bigEndianHost plainConfig countingRng eth0).2
      [ackEnv, ackEnv] (by decide) (by decide) (by decide)).2⟩

/-- A datagram shorter than `struct request`, the empty one included, is dropped:
`handle_incoming` returns 1, calls nothing, and leaves the state, the password and
the generator alone. -/
theorem handle_incoming_short_datagram (h : Host) (cfg : Config) (env : Env) (rng : Rng)
    (iface : Interface) (payload : List Nat) (sender : SockAddr)
    (hrecv : env.recv = RecvOutcome.datagram payload sender)
    (hshort : payload.length < sizeof_request) :
    (handle_incoming h cfg env rng iface).ret = 1 ∧
    (handle_incoming h cfg env rng iface).effects = [] ∧
    (handle_incoming h cfg env rng iface).iface.state = iface.state ∧
    (handle_incoming h cfg env rng iface).iface.password = iface.password ∧
    (handle_incoming h cfg env rng iface).rng = rng := by
  have hlen : (payload.take sizeof_request).length = payload.length := by
    rw [List.length_take]; omega
  have hsz : toSizeT (payload.length : Int) < sizeof_request := by
    have h4 : sizeof_request = 4 := rfl
    rw [h4] at hshort ⊢
    unfold toSizeT
    omega
  have hneg : ¬ ((payload.length : Int) < 0) := by omega
  simp [handle_incoming, hrecv, recvfrom, hlen, hsz, hneg]

/-- A receive call that reports would-block ends the drain loop: `handle_incoming`
returns 0 and changes nothing. -/
theorem handle_incoming_would_block (h : Host) (cfg : Config) (env : Env) (rng : Rng)
    (iface : Interface) (hrecv : env.recv = RecvOutcome.failure EWOULDBLOCK) :
    (handle_incoming h cfg env rng iface).ret = 0 ∧
    (handle_incoming h cfg env rng iface).effects = [] ∧
    (handle_incoming h cfg env rng iface).iface = iface ∧
    (handle_incoming h cfg env rng iface).rng = rng := by
  simp [handle_incoming, hrecv, recvfrom]

/-- C10, the failing input: `recvfrom` fails with `EINTR` (return value -1) while the
uninitialised `req` holds the bytes 00 2C on a big-endian host. The comparison
`ret < sizeof(req)` is made in `size_t`, where -1 is the largest value, so the request
type is read from the stale bytes: the session is moved to acknowledged and the "up"
hook is called. -/
theorem handle_incoming_receive_error_ack :
    toSizeT (-1) = 2 ^ 64 - 1 ∧
    (handle_incoming bigEndianHost plainConfig (failingEnv EINTR [0, 44, 0, 0]) countingRng
      eth0).iface.state = STATE_GOT_ACK ∧
    (handle_incoming bigEndianHost plainConfig (failingEnv EINTR [0, 44, 0, 0]) countingRng
      eth0).effects = [Effect.hook none "eth0" "up"] := by
  refine ⟨by decide, by decide, by decide⟩

/-- The same failure with stale bytes 00 2A: the password of the session is
replaced and a response is broadcast. -/
theorem handle_incoming_receive_error_getlease :
    (handle_incoming bigEndianHost plainConfig (failingEnv EINTR [0, 42, 0, 0]) countingRng
      eth0).iface.password ≠ eth0.password ∧
    (handle_incoming bigEndianHost plainConfig (failingEnv EINTR [0, 42, 0, 0]) countingRng
      eth0).effects.length = 1 := by
  refine ⟨by decide, by decide⟩

/-! ## Theorems: decoding a request -/

/-- On a big-endian host the decoding of `handle_incoming` recovers type and vlan. -/
theorem decode_big_endian (t v : Nat) (ht : t < 2 ^ 16) (hv : v < 2 ^ 16) :
    decoded_type bigEndianHost (encodeRequestForTest t v) = t ∧
    request_vlan bigEndianHost (encodeRequestForTest t v) = v := by
  simp [decoded_type, request_type, request_vlan, encodeRequestForTest, bigEndianBytes,
    bigEndianHost, loadBytes, bigEndianValue, ntohl, htonl, List.range_succ]
  omega

/-- A byte swap of a value below 2^16 has its lower 16 bits clear. -/
theorem bswap32_low_half (x : Nat) (hx : x < 2 ^ 16) : bswap32 x % 2 ^ 16 = 0 := by
  have h1 : x / 2 ^ 16 = 0 := Nat.div_eq_of_lt hx
  have h2 : x / 2 ^ 24 = 0 := Nat.div_eq_of_lt (by omega)
  unfold bswap32
  rw [h1, h2]
  omega

/-- On a little-endian host `ntohl` moves the 16-bit type into the upper half of its
32-bit result, and the assignment back to the 16-bit member keeps the lower half:
every request decodes to type 0. -/
theorem decode_little_endian (t v : Nat) :
    decoded_type littleEndianHost (encodeRequestForTest t v) = 0 := by
  have hx : t % 256 * 256 + t / 256 % 256 < 2 ^ 16 := by omega
  have hb := bswap32_low_half _ hx
  simp only [decoded_type, request_type, encodeRequestForTest, bigEndianBytes, littleEndianHost,
    loadBytes, bigEndianValue, ntohl, htonl, List.range_succ, List.range_zero, List.nil_append,
    List.map_cons, List.map_nil, List.cons_append, List.take_succ_cons, List.take_zero,
    List.reverse_cons, List.reverse_nil, List.foldl_cons, List.foldl_nil, if_true]
  norm_num
  norm_num at hb
  have hm : (t % 256 * 256 + t / 256 % 256) % 4294967296 = t % 256 * 256 + t / 256 % 256 :=
    Nat.mod_eq_of_lt (by omega)
  rw [hm]
  exact hb

/-- C4, the failing input: on a little-endian host the get-lease request (42, vlan 7)
decodes to type 0 and vlan 1792, an acknowledge to type 0, and `handle_incoming`
answers the get-lease request with nothing. -/
theorem decode_little_endian_getlease :
    encodeRequestForTest REQUEST_TYPE_GETLEASE 7 = [0, 42, 0, 7] ∧
    decoded_type littleEndianHost (encodeRequestForTest REQUEST_TYPE_GETLEASE 7) = 0 ∧
    request_vlan littleEndianHost (encodeRequestForTest REQUEST_TYPE_GETLEASE 7) = 1792 ∧
    decoded_type littleEndianHost (encodeRequestForTest REQUEST_TYPE_ACK 7) = 0 ∧
    (handle_incoming littleEndianHost plainConfig
      (zeroedEnv (RecvOutcome.datagram (encodeRequestForTest REQUEST_TYPE_GETLEASE 7)
        { sin_addr := 0, sin_port := 0 })) countingRng eth0).effects = [] := by
  refine ⟨by decide, by decide, by decide, by decide, by decide⟩

/-! ## Theorems: link state changes -/

/-- The loop of `physical_ethernet_state_change` for a link-down notification, on a
list whose first session of that name is `iface`. -/
theorem state_change_loop_down (h : Host) (cfg : Config) (env : LinkEnv) (name : String)
    (iface : Interface) (after : List Interface) (hname : iface.ifname = name) :
    ∀ before : List Interface, (∀ i ∈ before, i.ifname ≠ name) →
      state_change_loop h cfg env name 0 (before ++ iface :: after) =
        if iface.state = STATE_STOPPED then (before ++ iface :: after, [])
        else (before ++ { iface with state := STATE_STOPPED } :: after,
          Effect.close iface.sock ::
            (if env.closeRet < 0 then []
             else [Effect.hook cfg.hook_script_path name "down"])) := by
  intro before
  induction before with
  | nil =>
    intro _
    by_cases hst : iface.state = STATE_STOPPED
    · simp [state_change_loop, hname, hst]
    · by_cases hc : env.closeRet < 0
      · simp [state_change_loop, hname, hst, hc, stop_monitor_interface]
      · simp [state_change_loop, hname, hst, hc, stop_monitor_interface]
  | cons b before ih =>
    intro hall
    have hb : b.ifname ≠ name := hall b (List.mem_cons_self _ _)
    have ih1 := ih (fun i hi => hall i (List.mem_cons_of_mem _ hi))
    by_cases hst : iface.state = STATE_STOPPED
    · simp [state_change_loop, hb, ih1, hst]
    · simp [state_change_loop, hb, ih1, hst]

/-- C2, as amended: a link-down notification acts on the first session of the list
with the notified name and leaves every other session as it is. A session in a state
other than `STATE_STOPPED` has `close` called on its socket and its state set to
`STATE_STOPPED`, and the hook is called once with its name and "down" when `close`
succeeds and not at all when `close` returns a negative value; for a session in
`STATE_STOPPED` nothing changes and nothing is called. -/
theorem link_down_notification (h : Host) (cfg : Config) (env : LinkEnv) (name : String)
    (before after : List Interface) (iface : Interface)
    (hname : iface.ifname = name) (hfirst : ∀ i ∈ before, i.ifname ≠ name) :
    physical_ethernet_state_change h cfg env name 0 (before ++ iface :: after) =
      some (if iface.state = STATE_STOPPED then (before ++ iface :: after, [])
        else (before ++ { iface with state := STATE_STOPPED } :: after,
          Effect.close iface.sock ::
            (if env.closeRet < 0 then []
             else [Effect.hook cfg.hook_script_path name "down"]))) := by
  rw [← state_change_loop_down h cfg env name iface after hname before hfirst]
  cases before with
  | nil => rfl
  | cons b before => rfl

/-- Witness of `link_down_notification`: `eth0`, listening, between two sessions of
other names; `close` succeeds. -/
theorem link_down_notification_witness :
    physical_ethernet_state_change bigEndianHost plainConfig { closeRet := 0, setup := none }
        "eth0" 0
        ([{ eth0 with ifname := "eth1", sock := 5 }] ++ eth0 ::
          [{ eth0 with ifname := "eth2", sock := 6 }]) =
      some ([{ eth0 with ifname := "eth1", sock := 5 }] ++
          { eth0 with state := STATE_STOPPED } :: [{ eth0 with ifname := "eth2", sock := 6 }],
        [Effect.close 4, Effect.hook none "eth0" "down"]) :=
  link_down_notification bigEndianHost plainConfig { closeRet := 0, setup := none } "eth0"
    [{ eth0 with ifname := "eth1", sock := 5 }] [{ eth0 with ifname := "eth2", sock := 6 }]
    eth0 (by decide) (by decide)

/-- C2, as stated, fails: when `close` returns -1 the listening session `eth0` is set
to `STATE_STOPPED` and no hook is called. -/
theorem link_down_close_fails_no_hook :
    eth0.state = STATE_LISTENING ∧
    physical_ethernet_state_change bigEndianHost plainConfig { closeRet := -1, setup := none }
        "eth0" 0 [eth0] =
      some ([{ eth0 with state := STATE_STOPPED }], [Effect.close 4]) := by
  refine ⟨by decide, by decide⟩

/-! ## Theorems: the loop of main -/

/-- The descriptors the first loop of an iteration adds: the sockets of the sessions
in `STATE_LISTENING`. -/
theorem fdset_loop_mem (fd : Int) :
    ∀ (interfaces : List Interface) (fdset : List Int) (max_fd : Int),
      fd ∈ (fdset_loop interfaces (fdset, max_fd)).1 ↔
        fd ∈ fdset ∨ ∃ i ∈ interfaces, i.state = STATE_LISTENING ∧ i.sock = fd := by
  intro interfaces
  induction interfaces with
  | nil => intro fdset max_fd; simp [fdset_loop]
  | cons i rest ih =>
    intro fdset max_fd
    by_cases hst : i.state = STATE_LISTENING
    · simp only [fdset_loop, hst, ne_eq, not_true_eq_false, if_false, ih, List.mem_cons]
      constructor
      · rintro (⟨rfl | h⟩ | ⟨j, hj, hjs, hjf⟩)
        · exact Or.inr ⟨i, Or.inl rfl, hst, rfl⟩
        · exact Or.inl h
        · exact Or.inr ⟨j, Or.inr hj, hjs, hjf⟩
      · rintro (h | ⟨j, hj | hj, hjs, hjf⟩)
        · exact Or.inl (Or.inr h)
        · subst hj; exact Or.inl (Or.inl hjf.symm)
        · exact Or.inr ⟨j, hj, hjs, hjf⟩
    · simp only [fdset_loop, hst, ne_eq, not_false_eq_true, if_true, ih, List.mem_cons]
      constructor
      · rintro (h | ⟨j, hj, hjs, hjf⟩)
        · exact Or.inl h
        · exact Or.inr ⟨j, Or.inr hj, hjs, hjf⟩
      · rintro (h | ⟨j, hj | hj, hjs, hjf⟩)
        · exact Or.inl h
        · subst hj; exact absurd hjs hst
        · exact Or.inr ⟨j, hj, hjs, hjf⟩

/-- C5, as amended: for every non-empty list of sessions at the start of an iteration,
the descriptor set built for `select` holds exactly the link-notification descriptor
and the sockets of the sessions in `STATE_LISTENING`; the socket of a session in
`STATE_GOT_ACK` or `STATE_STOPPED` is not added on that session's account. -/
theorem build_fdset_listening (nlsock : Int) (interfaces : List Interface)
    (hne : interfaces ≠ []) :
    ∃ fdset max_fd, build_fdset nlsock interfaces = some (fdset, max_fd) ∧
      ∀ fd, fd ∈ fdset ↔
        fd = nlsock ∨ ∃ i ∈ interfaces, i.state = STATE_LISTENING ∧ i.sock = fd := by
  cases interfaces with
  | nil => exact absurd rfl hne
  | cons i rest =>
    refine ⟨_, _, rfl, fun fd => ?_⟩
    rw [List.mem_cons, fdset_loop_mem]
    simp

/-- Witness of `build_fdset_listening`: descriptor 3 and the listening `eth0`. -/
theorem build_fdset_listening_witness :
    ∃ fdset max_fd, build_fdset 3 [eth0] = some (fdset, max_fd) ∧
      ∀ fd, fd ∈ fdset ↔ fd = 3 ∨ ∃ i ∈ [eth0], i.state = STATE_LISTENING ∧ i.sock = fd :=
  build_fdset_listening 3 [eth0] (by decide)

/-- C5, as stated, fails: the socket (descriptor 4) of a session in `STATE_GOT_ACK` is
not in the set built for `select`. -/
theorem build_fdset_skips_acknowledged :
    build_fdset 3 [{ eth0 with state := STATE_GOT_ACK }] = some ([3], 3) ∧
    ({ eth0 with state := STATE_GOT_ACK } : Interface).sock ∉ [(3 : Int)] := by
  refine ⟨by decide, by decide⟩

/-- A session whose `recvfrom` fails with `EBADF` on every call, with a zeroed `req`:
the loop `while(handle_incoming(iface))` invokes `handle_incoming` on it in every
round and does not finish, whatever the fuel. -/
theorem drain_bad_descriptor (cfg : Config) (iface : Interface) (fuel : Nat) :
    ∀ (k : Nat) (rng : Rng),
      (drain bigEndianHost cfg (fun _ => zeroedEnv (RecvOutcome.failure EBADF)) fuel k rng
        iface).finished = false ∧
      (drain bigEndianHost cfg (fun _ => zeroedEnv (RecvOutcome.failure EBADF)) fuel k rng
        iface).calls = List.replicate fuel iface := by
  have hstep : ∀ rng : Rng,
      handle_incoming bigEndianHost cfg (zeroedEnv (RecvOutcome.failure EBADF)) rng iface =
        { ret := 1, iface := iface, rng := rng, effects := [] } := by
    intro rng
    have h1 : ¬ toSizeT (-1) < sizeof_request := by decide
    have h2 : decoded_type bigEndianHost (junkBytes (fun _ => 0) sizeof_request) = 0 := by
      decide
    have h3 : (0 : Nat) ≠ REQUEST_TYPE_GETLEASE := by decide
    have h4 : (0 : Nat) ≠ REQUEST_TYPE_ACK := by decide
    have h5 : EBADF ≠ EWOULDBLOCK := by decide
    have h6 : EBADF ≠ EAGAIN := by decide
    simp [handle_incoming, zeroedEnv, recvfrom, h1, h2, h3, h4, h5, h6]
  induction fuel with
  | zero => intro k rng; simp [drain]
  | succ n ih =>
    intro k rng
    obtain ⟨i1, i2⟩ := ih (k + 1) rng
    simp only [drain, hstep]
    simp [i1, i2, List.replicate_succ]

/-- C6, the failing input: `eth0` is listening on descriptor 4 when the set is built;
`select` reports the link channel and descriptor 4 readable; the link-down
notification stops `eth0` and closes descriptor 4; the second loop still finds
descriptor 4 in the set and invokes `handle_incoming` on `eth0` in `STATE_STOPPED`,
round after round. -/
theorem main_iteration_calls_stopped :
    build_fdset 3 [eth0] = some ([3, 4], 4) ∧
    (main_iteration bigEndianHost plainConfig 3 linkDownLoopEnv 3 [eth0] countingRng).map
        (fun r => (r.finished, r.calls, r.effects)) =
      some (false, List.replicate 3 { eth0 with state := STATE_STOPPED },
        [Effect.close 4, Effect.hook none "eth0" "down"]) := by
  refine ⟨by decide, by decide⟩

/-! ## Theorems: the response -/

theorem storeBytes_length (h : Host) (width v : Nat) : (storeBytes h width v).length = width := by
  unfold storeBytes bigEndianBytes
  split <;> simp

theorem cstr_length_le (mem : List Nat) : (cstr mem).length ≤ mem.length := by
  unfold cstr
  induction mem with
  | nil => simp
  | cons b bs ih =>
    rw [List.takeWhile_cons]
    split
    · simp only [List.length_cons]; omega
    · simp

theorem strncpy_length (src : List Nat) (n : Nat) : (strncpy src n).length = n := by
  have h1 := cstr_length_le (src.take n)
  have h2 : (src.take n).length ≤ n := by rw [List.length_take]; omega
  simp only [strncpy, List.length_append, List.length_replicate]
  omega

theorem writeAt_length (buf bytes : List Nat) (off : Nat)
    (hfit : off + bytes.length ≤ buf.length) : (writeAt buf off bytes).length = buf.length := by
  simp only [writeAt, List.length_append, List.length_take, List.length_drop]
  omega

/-- Reading back the bytes just written. -/
theorem read_writeAt_same (buf bytes : List Nat) (off : Nat) (hfit : off ≤ buf.length) :
    ((writeAt buf off bytes).drop off).take bytes.length = bytes := by
  have hlen : (buf.take off).length = off := by rw [List.length_take]; omega
  unfold writeAt
  rw [List.append_assoc, List.drop_left' hlen, List.take_left]

/-- A write further up leaves lower bytes as they were. -/
theorem read_writeAt_below (buf bytes : List Nat) (off off2 n : Nat) (hlow : off + n ≤ off2)
    (hfit : off2 ≤ buf.length) :
    ((writeAt buf off2 bytes).drop off).take n = (buf.drop off).take n := by
  have hlen : (buf.take off2).length = off2 := by rw [List.length_take]; omega
  unfold writeAt
  rw [List.append_assoc, List.drop_append_of_le_length (by omega),
    List.take_append_of_le_length (by rw [List.length_drop]; omega),
    List.drop_take, List.take_take]
  congr 1
  omega

/-- A write at the end of the first part of a buffer goes into the second part. -/
theorem writeAt_append (a b bytes : List Nat) :
    writeAt (a ++ b) a.length bytes = a ++ (bytes ++ b.drop bytes.length) := by
  unfold writeAt
  rw [List.take_left, List.drop_append, List.append_assoc]

/-- The four bytes of a number put together from four bytes. -/
theorem bytes_of_sum (a b c d : Nat) (ha : a < 256) (hb : b < 256) (hc : c < 256)
    (hd : d < 256) :
    (a * 2 ^ 24 + b * 2 ^ 16 + c * 2 ^ 8 + d) / 2 ^ 24 % 256 = a ∧
    (a * 2 ^ 24 + b * 2 ^ 16 + c * 2 ^ 8 + d) / 2 ^ 16 % 256 = b ∧
    (a * 2 ^ 24 + b * 2 ^ 16 + c * 2 ^ 8 + d) / 2 ^ 8 % 256 = c ∧
    (a * 2 ^ 24 + b * 2 ^ 16 + c * 2 ^ 8 + d) % 256 = d := by
  omega

theorem bigEndianBytes_four (v : Nat) :
    bigEndianBytes 4 v = [v / 2 ^ 24 % 256, v / 2 ^ 16 % 256, v / 2 ^ 8 % 256, v % 256] := by
  simp [bigEndianBytes, List.range_succ]

theorem bswap32_bytes (y : Nat) :
    bigEndianBytes 4 (bswap32 y) =
      [y % 256, y / 2 ^ 8 % 256, y / 2 ^ 16 % 256, y / 2 ^ 24 % 256] := by
  obtain ⟨h1, h2, h3, h4⟩ := bytes_of_sum (y % 256) (y / 2 ^ 8 % 256) (y / 2 ^ 16 % 256)
    (y / 2 ^ 24 % 256) (Nat.mod_lt _ (by norm_num)) (Nat.mod_lt _ (by norm_num))
    (Nat.mod_lt _ (by norm_num)) (Nat.mod_lt _ (by norm_num))
  rw [bigEndianBytes_four]
  unfold bswap32
  rw [h1, h2, h3, h4]

/-- The two conversions of a 32-bit value, `htonl` and the store in host order,
together give its bytes in network order on every host. -/
theorem storeBytes_htonl (h : Host) (x : Nat) :
    storeBytes h 4 (htonl h x) = bigEndianBytes 4 x := by
  cases h with
  | mk le =>
    cases le with
    | false =>
      simp only [storeBytes, htonl, Bool.false_eq_true, if_false, bigEndianBytes_four]
      refine congrArg₂ _ ?_ (congrArg₂ _ ?_ (congrArg₂ _ ?_ (congrArg₂ _ ?_ rfl))) <;> omega
    | true =>
      simp only [storeBytes, htonl, if_true]
      rw [bswap32_bytes, bigEndianBytes_four]
      simp only [List.reverse_cons, List.reverse_nil, List.nil_append, List.cons_append]
      refine congrArg₂ _ ?_ (congrArg₂ _ ?_ (congrArg₂ _ ?_ (congrArg₂ _ ?_ rfl))) <;> omega

theorem cstr_of_no_zero (mem : List Nat) (hz : 0 ∉ mem) : cstr mem = mem := by
  unfold cstr
  rw [List.takeWhile_eq_self_iff]
  intro x hx
  have : x ≠ 0 := fun h0 => hz (h0 ▸ hx)
  simpa using this

/-- A write that replaces the middle part of a buffer. -/
theorem writeAt_mid (a b c bytes : List Nat) (off : Nat) (hoff : off = a.length)
    (hlen : bytes.length = b.length) : writeAt (a ++ b ++ c) off bytes = a ++ bytes ++ c := by
  subst hoff
  unfold writeAt
  rw [List.append_assoc a b c, List.take_left, hlen, List.drop_append, List.drop_left]

/-- A buffer of `x + y + z` bytes is three buffers of `x`, `y` and `z` bytes. -/
theorem split_three (buf : List Nat) (x y z : Nat) (hlen : buf.length = x + y + z) :
    ∃ a b c, buf = a ++ b ++ c ∧ a.length = x ∧ b.length = y ∧ c.length = z := by
  refine ⟨buf.take x, (buf.drop x).take y, (buf.drop x).drop y, ?_, ?_, ?_, ?_⟩
  · rw [List.append_assoc, List.take_append_drop, List.take_append_drop]
  · rw [List.length_take]; omega
  · rw [List.length_take, List.length_drop]; omega
  · rw [List.length_drop, List.length_drop]; omega

/-- The buffer `send_response` sends with a certificate and a key, from the struct
`resp` it copies in and the two strings. -/
theorem sendbuf_layout (buf resp C K : List Nat) (hresp : resp.length = sizeof_response)
    (hbuf : buf.length = sizeof_response + (C.length + 1) + (K.length + 1)) :
    List.take (sizeof_response + (C.length + 1) + (K.length + 1))
      (writeAt (writeAt (writeAt (writeAt (writeAt buf 0 resp)
        sizeof_response (List.take (C.length + 1) (C ++ [0])))
        (sizeof_response + (C.length + 1) - 1) [0])
        (sizeof_response + (C.length + 1)) (List.take (K.length + 1) (K ++ [0])))
        (sizeof_response + (C.length + 1) + (K.length + 1) - 1) [0]) =
      resp ++ (C ++ [0]) ++ (K ++ [0]) := by
  obtain ⟨a, b, c, rfl, ha, hb, hc⟩ := split_three buf _ _ _ hbuf
  have hC : List.take (C.length + 1) (C ++ [0]) = C ++ [0] :=
    List.take_of_length_le (by simp)
  have hK : List.take (K.length + 1) (K ++ [0]) = K ++ [0] :=
    List.take_of_length_le (by simp)
  have e1 : writeAt (a ++ b ++ c) 0 resp = resp ++ b ++ c := by
    have h1 := writeAt_mid [] a (b ++ c) resp 0 rfl (by rw [hresp, ha])
    simpa [List.append_assoc] using h1
  have e2 : writeAt (resp ++ b ++ c) sizeof_response (C ++ [0]) = resp ++ (C ++ [0]) ++ c :=
    writeAt_mid resp b c (C ++ [0]) _ hresp.symm (by simp [hb])
  have e3 : writeAt (resp ++ (C ++ [0]) ++ c) (sizeof_response + (C.length + 1) - 1) [0] =
      resp ++ (C ++ [0]) ++ c := by
    have h3 := writeAt_mid (resp ++ C) [0] c [0] (sizeof_response + (C.length + 1) - 1)
      (by simp [hresp]) rfl
    simpa [List.append_assoc] using h3
  have e4 : writeAt (resp ++ (C ++ [0]) ++ c) (sizeof_response + (C.length + 1)) (K ++ [0]) =
      resp ++ (C ++ [0]) ++ (K ++ [0]) := by
    have h4 := writeAt_mid (resp ++ (C ++ [0])) c [] (K ++ [0]) (sizeof_response + (C.length + 1))
      (by simp [hresp]) (by simp [hc])
    simpa [List.append_assoc] using h4
  have e5 : writeAt (resp ++ (C ++ [0]) ++ (K ++ [0]))
      (sizeof_response + (C.length + 1) + (K.length + 1) - 1) [0] =
      resp ++ (C ++ [0]) ++ (K ++ [0]) := by
    have h5 := writeAt_mid (resp ++ (C ++ [0]) ++ K) [0] [] [0]
      (sizeof_response + (C.length + 1) + (K.length + 1) - 1) (by simp [hresp]; omega) rfl
    simpa [List.append_assoc] using h5
  rw [hC, hK, e1, e2, e3, e4, e5]
  exact List.take_of_length_le (by simp [hresp]; omega)

theorem junkBytes_take (junk : Nat → Nat) (m n : Nat) (hmn : m ≤ n) :
    (junkBytes junk n).take m = junkBytes junk m := by
  unfold junkBytes
  rw [← List.map_take, List.take_range, Nat.min_eq_left hmn]

/-- A write further up leaves the first bytes as they were. -/
theorem take_writeAt_below (buf bytes : List Nat) (off n : Nat) (hlow : n ≤ off)
    (hfit : off ≤ buf.length) : (writeAt buf off bytes).take n = buf.take n := by
  have h := read_writeAt_below buf bytes 0 off n (by omega) hfit
  simpa using h

/-- The struct `resp` of `send_response` after the six assignments to its members:
its size, the two size members as stored, and the bytes of the member `crc`, which no
assignment touches. -/
theorem resp_members (r0 r1 r2 r3 r4 r5 r6 b1 b2 b3 b4 b5 b6 : List Nat)
    (h0 : r0.length = sizeof_response)
    (e1 : r1 = writeAt r0 offset_type b1) (n1 : b1.length = 2)
    (e2 : r2 = writeAt r1 offset_lease_ip b2) (n2 : b2.length = 4)
    (e3 : r3 = writeAt r2 offset_lease_netmask b3) (n3 : b3.length = 2)
    (e4 : r4 = writeAt r3 offset_password b4) (n4 : b4.length = PASSWORD_LENGTH + 1)
    (e5 : r5 = writeAt r4 offset_cert_size b5) (n5 : b5.length = 4)
    (e6 : r6 = writeAt r5 offset_key_size b6) (n6 : b6.length = 4) :
    r6.length = sizeof_response ∧
    (r6.drop offset_cert_size).take 4 = b5 ∧
    (r6.drop offset_key_size).take 4 = b6 ∧
    r6.take sizeof_crc = r0.take sizeof_crc := by
  have l1 : r1.length = sizeof_response := by
    rw [e1, writeAt_length r0 b1 offset_type (by rw [n1, h0]; decide), h0]
  have l2 : r2.length = sizeof_response := by
    rw [e2, writeAt_length r1 b2 offset_lease_ip (by rw [n2, l1]; decide), l1]
  have l3 : r3.length = sizeof_response := by
    rw [e3, writeAt_length r2 b3 offset_lease_netmask (by rw [n3, l2]; decide), l2]
  have l4 : r4.length = sizeof_response := by
    rw [e4, writeAt_length r3 b4 offset_password (by rw [n4, l3]; decide), l3]
  have l5 : r5.length = sizeof_response := by
    rw [e5, writeAt_length r4 b5 offset_cert_size (by rw [n5, l4]; decide), l4]
  have l6 : r6.length = sizeof_response := by
    rw [e6, writeAt_length r5 b6 offset_key_size (by rw [n6, l5]; decide), l5]
  refine ⟨l6, ?_, ?_, ?_⟩
  · rw [e6, read_writeAt_below r5 b6 offset_cert_size offset_key_size 4 (by decide)
      (by rw [l5]; decide), e5]
    have hs := read_writeAt_same r4 b5 offset_cert_size (by rw [l4]; decide)
    rwa [n5] at hs
  · rw [e6]
    have hs := read_writeAt_same r5 b6 offset_key_size (by rw [l5]; decide)
    rwa [n6] at hs
  · rw [e6, take_writeAt_below r5 b6 _ _ (by decide) (by rw [l5]; decide),
      e5, take_writeAt_below r4 b5 _ _ (by decide) (by rw [l4]; decide),
      e4, take_writeAt_below r3 b4 _ _ (by decide) (by rw [l3]; decide),
      e3, take_writeAt_below r2 b3 _ _ (by decide) (by rw [l2]; decide),
      e2, take_writeAt_below r1 b2 _ _ (by decide) (by rw [l1]; decide),
      e1, take_writeAt_below r0 b1 _ _ (by decide) (by rw [h0]; decide)]

/-- With a certificate and a key that hold no zero byte, `send_response` sends one
datagram: the struct `resp` as it stands when it is copied (its member `crc` still
holds what the stack held), then the certificate, a zero byte, the key, a zero
byte. -/
theorem send_response_cert_sent (h : Host) (env : Env) (iface : Interface)
    (script : Option String) (C K : List Nat) (hC : 0 ∉ C) (hK : 0 ∉ K) :
    ∃ resp : List Nat, resp.length = sizeof_response ∧
      (resp.drop offset_cert_size).take 4 = bigEndianBytes 4 (C.length + 1) ∧
      (resp.drop offset_key_size).take 4 = bigEndianBytes 4 (K.length + 1) ∧
      resp.take sizeof_crc = junkBytes env.respJunk sizeof_crc ∧
      (send_response h { ssl_cert := some C, ssl_key := some K, hook_script_path := script }
        env iface).effects =
        [Effect.broadcast iface.sock (resp ++ (C ++ [0]) ++ (K ++ [0])) SERVER_PORT
          CLIENT_PORT] := by
  have hcs : cstr C = C := cstr_of_no_zero C hC
  have hks : cstr K = K := cstr_of_no_zero K hK
  obtain ⟨m1, m2, m3, m4⟩ := resp_members (junkBytes env.respJunk sizeof_response) _ _ _ _ _ _
    (storeBytes h 2 (htonl h RESPONSE_TYPE))
    (storeBytes h 4 (htonl h (inet_addr h iface.ip)))
    (storeBytes h 2 (htonl h (inet_addr h iface.netmask)))
    (strncpy iface.password (PASSWORD_LENGTH + 1))
    (storeBytes h 4 (htonl h (C.length + 1)))
    (storeBytes h 4 (htonl h (K.length + 1)))
    (junkBytes_length _ _)
    rfl (storeBytes_length _ _ _) rfl (storeBytes_length _ _ _) rfl (storeBytes_length _ _ _)
    rfl (strncpy_length _ _) rfl (storeBytes_length _ _ _) rfl (storeBytes_length _ _ _)
  rw [junkBytes_take _ _ _ (by decide)] at m4
  refine ⟨_, m1, m2.trans (storeBytes_htonl _ _), m3.trans (storeBytes_htonl _ _), m4, ?_⟩
  simp only [send_response, broadcast_packet, strlen, memcpyString, hcs, hks]
  rw [sendbuf_layout _ _ C K m1 (junkBytes_length _ _)]

/-- With a certificate and a key, the checksum field of the datagram sent holds the
bytes the uninitialised `resp.crc` held, whatever the rest of the datagram is. -/
theorem send_response_cert_crc_unset (h : Host) (env : Env) (iface : Interface)
    (script : Option String) (C K : List Nat) (hC : 0 ∉ C) (hK : 0 ∉ K) :
    (sentBytes (send_response h
      { ssl_cert := some C, ssl_key := some K, hook_script_path := script }
      env iface).effects).take sizeof_crc = junkBytes env.respJunk sizeof_crc := by
  obtain ⟨resp, hlen, _, _, hcrc, heff⟩ := send_response_cert_sent h env iface script C K hC hK
  rw [heff]
  simp only [sentBytes]
  rw [List.append_assoc, List.take_append_of_le_length (by rw [hlen]; decide), hcrc]

/-- C3, the failing input: certificate "CERT" and key "KEY" are configured and `eth0`
receives a get-lease request (big-endian host, zeroed stack). The 69 bytes sent carry
in their checksum field the four bytes the uninitialised `resp.crc` held (here 0), not
the CRC-32 of the bytes behind the field, which is 0x01CBC30B: `add_crc` runs on the
local `resp` after the struct was copied into the buffer that is sent. Without
certificate and key the field does hold the CRC-32 of the rest. -/
theorem send_response_cert_checksum :
    (sentBytes (handle_incoming bigEndianHost certConfig getLeaseEnv countingRng
      eth0).effects).length = 69 ∧
    (sentBytes (handle_incoming bigEndianHost certConfig getLeaseEnv countingRng
      eth0).effects).take 4 = [0, 0, 0, 0] ∧
    bigEndianBytes 4 (crc32 ((sentBytes (handle_incoming bigEndianHost certConfig getLeaseEnv
      countingRng eth0).effects).drop 4)) = [1, 203, 195, 11] ∧
    (sentBytes (handle_incoming bigEndianHost plainConfig getLeaseEnv countingRng
      eth0).effects).take 4 =
      bigEndianBytes 4 (crc32 ((sentBytes (handle_incoming bigEndianHost plainConfig getLeaseEnv
        countingRng eth0).effects).drop 4)) := by
  refine ⟨by decide, by decide, by decide!, by decide!⟩

end Notdhcp
